import Mathlib

/-!
Shallow embedding of the EntityDB entity-component persistence engine
(package `entitydb/` with the SQLite backend, plus the legacy monolithic
`entitydb.py` and the partial GCS backend), for checking the repository's
natural-language specification.

Modelling conventions:
* SQLite tables are association lists; a missing key in a row's field list
  means SQL NULL.  Python's `random.randint` id generation is modelled by
  caller-supplied id arguments.  Python exceptions (sqlite3 errors,
  `AttributeError` on the unset `uid` attribute, `NotImplementedError`)
  become `Except.error`.
* `Entity._components` (a Python dict keyed by component class) is a list of
  components with insert-or-replace semantics (`dictInsert`).
* A Python component class is a `CompType` (its `__name__` and the
  constructor-argument field list from `get_instance_variables`); a component
  instance is a `Component` (its class, its `_uid` if assigned, and its
  public variables from `get_variables_of`).
-/

/-- A SQLite storage value; `null` is SQL NULL (and Python `None`). -/
inductive Val where
  | null : Val
  | int : Int → Val
  | str : String → Val
deriving DecidableEq, Repr

deriving instance DecidableEq for Except

/-- First-match association-list lookup (Python dict read / SQL column read). -/
def alookup {β : Type} : List (String × β) → String → Option β
  | [], _ => none
  | (k, v) :: rest, key => if k = key then some v else alookup rest key

/-- Replace the value stored at a key (first occurrence, keeping its
position, as a Python dict or a SQL table update does), or append the
binding if the key is absent. -/
def aupsert {β : Type} : List (String × β) → String → β → List (String × β)
  | [], k, v => [(k, v)]
  | (a, b) :: rest, k, v =>
    if a = k then (a, v) :: rest else (a, b) :: aupsert rest k v

/-- Set one field of a row (SQL `SET name = value`): replace or append. -/
def aset (l : List (String × Val)) (k : String) (v : Val) : List (String × Val) :=
  aupsert l k v

/-- A Python component class: its `__name__` and the constructor fields
returned by `get_instance_variables` (the `__init__` annotations). -/
structure CompType where
  name : String
  schema : List String
deriving DecidableEq, Repr

/-- A component instance: its class, its `_uid` (unset before first save),
and its public variables as returned by `get_variables_of`. -/
structure Component where
  ctype : CompType
  cuid : Option Nat := none
  vars : List (String × Val)
deriving DecidableEq, Repr

/-- In-memory `Entity`: `uid`/`db` are unset until first persist (modelled by
`none`), `comps` is the `_components` dict, `unloaded` is
`_unloaded_components`. -/
structure PyEntity where
  uid : Option Nat := none
  comps : List Component := []
  unloaded : List String := []
deriving DecidableEq, Repr

/-- A row of a component table: `_uid` primary key, `_entity` reference,
and the stored field values (missing key = NULL). -/
structure CompRow where
  uid : Nat
  ent : Option Nat
  fields : List (String × Val)
deriving DecidableEq, Repr

/-- A per-component-type table: its field columns (beyond `_uid`/`_entity`)
and its rows. -/
structure CompTable where
  cols : List String
  rows : List CompRow
deriving DecidableEq, Repr

/-- A row of the `_entities` index table: entity `_uid` plus the non-NULL
component-reference cells. -/
structure EntityRow where
  uid : Nat
  refs : List (String × Nat)
deriving DecidableEq, Repr

/-- The `_entities` index table: one nullable reference column per known
component type, plus the rows. -/
structure EntityTable where
  compCols : List String
  rows : List EntityRow
deriving DecidableEq, Repr

/-- The whole store: the in-memory `component_classes` registry and the
SQLite file contents. -/
structure DBState where
  registry : List (String × CompType)
  entTable : EntityTable
  compTables : List (String × CompTable)
deriving DecidableEq, Repr

/-- State of a freshly created database file (`_create_db`): an `_entities`
table with only the `_uid` column, and an empty registry. -/
def empty_db : DBState :=
  { registry := [], entTable := { compCols := [], rows := [] }, compTables := [] }

/-- Reading a column of a component row through `SELECT *`: NULL columns come
back as Python `None`. -/
def readField (r : CompRow) (c : String) : Val :=
  (alookup r.fields c).getD Val.null

/-- One `does_column_exist` check followed by `ALTER TABLE ... ADD`:
the column is appended only when it is not already present. -/
def addColumnIfMissing (tbl : CompTable) (c : String) : CompTable :=
  if c ∈ tbl.cols then tbl else { tbl with cols := tbl.cols ++ [c] }

/-- Append the component's reference column to `_entities` when missing
(the guarded `ALTER TABLE _entities ADD` in `_register_component_type`). -/
def addEntityColumnIfMissing (t : EntityTable) (c : String) : EntityTable :=
  if c ∈ t.compCols then t else { t with compCols := t.compCols ++ [c] }

/-- Embedding of `EntityDB_SQLite._register_component_type`: a no-op when the
name is already registered; otherwise records the class, creates the table if
absent, adds any missing field column, and adds the reference column to
`_entities` when missing.  Returns whether this was the first registration. -/
def register_component_type (t : CompType) (st : DBState) : Bool × DBState :=
  if (alookup st.registry t.name).isSome then (false, st)
  else
    let tbl0 := match alookup st.compTables t.name with
      | some tb => tb
      | none => { cols := [], rows := [] }
    let tbl1 := t.schema.foldl addColumnIfMissing tbl0
    (true,
      { registry := st.registry ++ [(t.name, t)],
        entTable := addEntityColumnIfMissing st.entTable t.name,
        compTables := aupsert st.compTables t.name tbl1 })

/-- Register a list of component types in order (the loop over
`system.get_components_from_signature()`). -/
def registerAll (ts : List CompType) (st : DBState) : DBState :=
  ts.foldl (fun s t => (register_component_type t s).2) st

/-- The query-relevant content of a `SystemWrapper`: the values of the
`include_components` dict, the `optional_components` dict, and the
`exclude_components` list parsed from the system function's signature. -/
structure SystemSig where
  include_components : List CompType
  optional_components : List CompType
  exclude_components : List CompType
deriving DecidableEq, Repr

/-- Embedding of `SystemWrapper.get_components_from_signature`: required plus
optional component types, excluded ones deliberately left out. -/
def get_components_from_signature (s : SystemSig) : List CompType :=
  s.include_components ++ s.optional_components

/-- The conjunct strings built in `EntityDB_SQLite.run`: one
`IS NOT NULL` clause per required component and one `IS NULL` clause per
excluded component. -/
def whereClauses (s : SystemSig) : List String :=
  s.include_components.map (fun t => t.name ++ " IS NOT NULL")
    ++ s.exclude_components.map (fun t => t.name ++ " IS NULL")

/-- The `where_clause` string of `run`: the conjuncts joined by `" AND "`. -/
def where_clause (s : SystemSig) : String :=
  String.intercalate " AND " (whereClauses s)

/-- The full SELECT statement text issued by `run`. -/
def select_statement (s : SystemSig) : String :=
  "SELECT * FROM _entities WHERE (" ++ where_clause s ++ ")"

/-- Whether an index row holds a component of the given type name
(`<TypeColumn> IS NOT NULL` on that row). -/
def rowHolds (r : EntityRow) (name : String) : Bool :=
  (alookup r.refs name).isSome

/-- SQLite's evaluation of `run`'s WHERE clause on one `_entities` row:
every required column non-NULL and every excluded column NULL. -/
def evalPred (s : SystemSig) (r : EntityRow) : Bool :=
  s.include_components.all (fun t => rowHolds r t.name)
    && s.exclude_components.all (fun t => !rowHolds r t.name)

/-- Modelled from the spec: the predicate the specification describes for
`query(D)` — the pure conjunction of required `IS NOT NULL` and excluded
`IS NULL` conditions, with an empty conjunction being true. -/
def spec_matches (s : SystemSig) (r : EntityRow) : Bool :=
  s.include_components.all (fun t => rowHolds r t.name)
    && s.exclude_components.all (fun t => !rowHolds r t.name)

/-- SQLite executing `select_statement` against the `_entities` table:
an empty parenthesised WHERE clause is a syntax error, a clause naming a
column the table does not have is an error, and otherwise the matching rows
are returned in table order. -/
def execSelect (s : SystemSig) (st : DBState) : Except String (List EntityRow) :=
  if whereClauses s = [] then
    Except.error "sqlite3.OperationalError: syntax error near ) "
  else if h : ∀ t ∈ s.include_components ++ s.exclude_components,
      t.name ∈ st.entTable.compCols then
    Except.ok (st.entTable.rows.filter (evalPred s))
  else
    Except.error "sqlite3.OperationalError: no such column"

/-- The query phase of `EntityDB_SQLite.run` (through `fetchall`): register
every required/optional component type, build the WHERE clause, and fetch the
matching `_entities` rows. -/
def run_query_phase (s : SystemSig) (st : DBState) :
    Except String (List EntityRow × DBState) :=
  let st1 := registerAll (get_components_from_signature s) st
  (execSelect s st1).map (fun rows => (rows, st1))

/-- The conjunct strings built in `EntityDB_SQLite.count_matches`
(duplicated from `run` in the source). -/
def count_whereClauses (s : SystemSig) : List String :=
  s.include_components.map (fun t => t.name ++ " IS NOT NULL")
    ++ s.exclude_components.map (fun t => t.name ++ " IS NULL")

/-- SQLite executing `count_matches`' `SELECT COUNT(*)` statement: same error
behaviour as the SELECT of `run`, but only the number of matching rows is
computed — no row content leaves the database. -/
def execSelectCount (s : SystemSig) (st : DBState) : Except String Nat :=
  if count_whereClauses s = [] then
    Except.error "sqlite3.OperationalError: syntax error near ) "
  else if h : ∀ t ∈ s.include_components ++ s.exclude_components,
      t.name ∈ st.entTable.compCols then
    Except.ok (st.entTable.rows.countP (fun r => evalPred s r))
  else
    Except.error "sqlite3.OperationalError: no such column"

/-- Embedding of `EntityDB_SQLite.count_matches`: register the signature's
component types, then run the count-only query. -/
def count_matches (s : SystemSig) (st : DBState) : Except String (Nat × DBState) :=
  let st1 := registerAll (get_components_from_signature s) st
  (execSelectCount s st1).map (fun n => (n, st1))

/-- `INSERT INTO <component> (_uid, _entity, fields...) VALUES (...)`:
errors when a named column does not exist or the primary key is taken,
otherwise appends the row. -/
def compInsert (tbl : CompTable) (cUid eUid : Nat) (vars : List (String × Val)) :
    Except String CompTable :=
  if h : ∀ p ∈ vars, p.1 ∈ tbl.cols then
    if tbl.rows.any (fun r => r.uid = cUid) then
      Except.error "sqlite3.IntegrityError: UNIQUE constraint failed"
    else
      Except.ok { tbl with
        rows := tbl.rows ++ [{ uid := cUid, ent := some eUid, fields := vars }] }
  else Except.error "sqlite3.OperationalError: no such column"

/-- The per-component loop of `add_entity`: register each loaded component's
class, assign it the supplied fresh `_uid`, and insert its row. -/
def addComponents : List (Component × Nat) → Nat → DBState → Except String DBState
  | [], _, st => Except.ok st
  | (c, cid) :: rest, eUid, st =>
    let st1 := (register_component_type c.ctype st).2
    match alookup st1.compTables c.ctype.name with
    | none => Except.error "sqlite3.OperationalError: no such table"
    | some tbl =>
      match compInsert tbl cid eUid c.vars with
      | Except.error m => Except.error m
      | Except.ok tbl1 =>
        addComponents rest eUid
          { st1 with compTables := aupsert st1.compTables c.ctype.name tbl1 }

/-- `INSERT INTO _entities (_uid, <types>...) VALUES (...)`: errors when the
column and value counts differ (the arity error Python's sqlite3 raises when
the entity has unloaded component names), when a column is unknown, or when
the entity id is already taken. -/
def entityInsert (t : EntityTable) (eUid : Nat) (cols : List String)
    (vals : List Nat) : Except String EntityTable :=
  if cols.length ≠ vals.length then
    Except.error "sqlite3.ProgrammingError: wrong number of supplied values"
  else if h : ∀ c ∈ cols, c ∈ t.compCols then
    if t.rows.any (fun r => r.uid = eUid) then
      Except.error "sqlite3.IntegrityError: UNIQUE constraint failed"
    else
      Except.ok { t with rows := t.rows ++ [{ uid := eUid, refs := cols.zip vals }] }
  else Except.error "sqlite3.OperationalError: no such column"

/-- Embedding of `EntityDB_SQLite.add_entity`.  The entity and component ids
chosen by `random.randint` are passed in (`eUid`, `cUids`); `cUids` must
supply one id per loaded component. -/
def add_entity (eUid : Nat) (cUids : List Nat) (e : PyEntity) (st : DBState) :
    Except String (Nat × PyEntity × DBState) :=
  if cUids.length ≠ e.comps.length then
    Except.error "model: one fresh component id is needed per loaded component"
  else
    let e1 : PyEntity :=
      { e with uid := some eUid,
               comps := (e.comps.zip cUids).map (fun p => { p.1 with cuid := some p.2 }) }
    match addComponents (e.comps.zip cUids) eUid st with
    | Except.error m => Except.error m
    | Except.ok st1 =>
      let cols := e.comps.map (fun c => c.ctype.name) ++ e.unloaded
      match entityInsert st1.entTable eUid cols cUids with
      | Except.error m => Except.error m
      | Except.ok eT => Except.ok (eUid, e1, { st1 with entTable := eT })

/-- `SELECT * FROM <component> WHERE _uid == ?`: comparing with NULL matches
no row; otherwise the first row with that primary key. -/
def fetchRowByUid (tbl : CompTable) (uid : Option Nat) : Option CompRow :=
  match uid with
  | none => none
  | some u => tbl.rows.find? (fun r => r.uid = u)

/-- Embedding of `EntityDB._create_component_from_data`: construct the
component from all row columns except `_uid` and `_entity` (NULL cells are
passed as Python `None`); the fresh object has no `_uid` of its own. -/
def create_component_from_data (t : CompType) (tbl : CompTable) (row : CompRow) :
    Component :=
  { ctype := t, cuid := none,
    vars := tbl.cols.map (fun c => (c, readField row c)) }

/-- Python-dict insertion into `Entity._components`: replace the entry of the
same component class, or append. -/
def dictInsert (comps : List Component) (c : Component) : List Component :=
  if comps.any (fun c0 => c0.ctype = c.ctype) then
    comps.map (fun c0 => if c0.ctype = c.ctype then c else c0)
  else comps ++ [c]

/-- The loop body of `_load_entity_from_ids` over the index row's component
columns: registered names are fetched by reference id and loaded (setting the
entity's `uid` from the component row), unregistered names are appended to
`_unloaded_components`. -/
def load_entity_from_ids_core :
    List String → EntityRow → DBState → PyEntity → Except String PyEntity
  | [], _, _, acc => Except.ok acc
  | n :: rest, row, st, acc =>
    match alookup st.registry n with
    | some t =>
      match alookup st.compTables n with
      | none => Except.error "sqlite3.OperationalError: no such table"
      | some tbl =>
        match fetchRowByUid tbl (alookup row.refs n) with
        | none => load_entity_from_ids_core rest row st acc
        | some crow =>
          load_entity_from_ids_core rest row st
            { acc with
              comps := dictInsert acc.comps (create_component_from_data t tbl crow),
              uid := crow.ent }
    | none =>
      load_entity_from_ids_core rest row st
        { acc with unloaded := acc.unloaded ++ [n] }

/-- Embedding of `EntityDB_SQLite._load_entity_from_ids`: materialize one
`_entities` row into an `Entity`, iterating every component column of the
index table. -/
def load_entity_from_ids (row : EntityRow) (st : DBState) : Except String PyEntity :=
  load_entity_from_ids_core st.entTable.compCols row st
    { uid := none, comps := [], unloaded := [] }

/-- Embedding of `EntityDB_SQLite.load_component`: register the class, fetch
the first row of its table with `_entity = entity.uid` (an unset `uid`
attribute raises), and on success overwrite the in-memory component and drop
the name from `_unloaded_components`. -/
def load_component (e : PyEntity) (t : CompType) (st : DBState) :
    Except String (Bool × PyEntity × DBState) :=
  let st1 := (register_component_type t st).2
  match e.uid with
  | none => Except.error "AttributeError: uid"
  | some u =>
    match alookup st1.compTables t.name with
    | none => Except.error "sqlite3.OperationalError: no such table"
    | some tbl =>
      match tbl.rows.find? (fun r => r.ent = some u) with
      | none => Except.ok (false, e, st1)
      | some crow =>
        Except.ok (true,
          { e with
            comps := dictInsert e.comps (create_component_from_data t tbl crow),
            unloaded := e.unloaded.erase t.name },
          st1)

/-- One component row after `UPDATE <component> SET f1 = ?, ... `:
every named field overwritten with the component's current value. -/
def updateRow (vars : List (String × Val)) (r : CompRow) : CompRow :=
  { r with fields := vars.foldl (fun fs p => aset fs p.1 p.2) r.fields }

/-- `UPDATE <component> SET ... WHERE _entity = u` applied to a whole
table: every row whose `_entity` cell equals `u` is overwritten. -/
def applyUpdate (u : Nat) (vars : List (String × Val)) (tbl : CompTable) :
    CompTable :=
  { tbl with rows := tbl.rows.map (fun r => if r.ent = some u then updateRow vars r else r) }

/-- The per-component loop of `update_entity`: each loaded component issues
one UPDATE statement built with `entity.uid` (raising when `uid` is unset, or
when the table or a column is missing, or when the component has no public
variables and the SET clause is empty). -/
def update_components (e : PyEntity) :
    List Component → DBState → Except String (Bool × DBState)
  | [], st => Except.ok (true, st)
  | c :: rest, st =>
    match e.uid with
    | none => Except.error "AttributeError: uid"
    | some u =>
      if c.vars = [] then
        Except.error "sqlite3.OperationalError: syntax error in UPDATE"
      else
        match alookup st.compTables c.ctype.name with
        | none => Except.error "sqlite3.OperationalError: no such table"
        | some tbl =>
          if h : ∀ p ∈ c.vars, p.1 ∈ tbl.cols then
            update_components e rest
              { st with compTables :=
                  aupsert st.compTables c.ctype.name (applyUpdate u c.vars tbl) }
          else Except.error "sqlite3.OperationalError: no such column"

/-- Embedding of `EntityDB_SQLite.update_entity`: loop the UPDATE statement
over the loaded components, then report `True`. -/
def update_entity (e : PyEntity) (st : DBState) : Except String (Bool × DBState) :=
  update_components e e.comps st

/-- Embedding of the package base class `EntityDB.delete_entity`
(inherited unchanged by the SQLite backend): `raise NotImplementedError()`. -/
def delete_entity (_e : PyEntity) (_st : DBState) : Except String (Unit × DBState) :=
  Except.error "NotImplementedError"

/-- Embedding of the legacy monolithic `entitydb.py` `EntityDB.delete_entity`:
`return False` — it returns normally and leaves the store untouched. -/
def legacy_delete_entity (_e : PyEntity) (st : DBState) :
    Except String (Bool × DBState) :=
  Except.ok (false, st)

/-- Embedding of `EntityDB_GCS.delete_entity`: reading an unset `uid`
attribute raises, a falsy `uid` raises "not saved yet", and otherwise the
inherited `NotImplementedError` is raised. -/
def gcs_delete_entity (uid : Option Nat) : Except String Unit :=
  match uid with
  | none => Except.error "AttributeError: uid"
  | some u =>
    if u = 0 then Except.error "Exception: Entity has not been saved yet"
    else Except.error "NotImplementedError"

/-- Embedding of `EntityDB_GCS._load_entity_from_cids`: object-store entity
materialization unconditionally raises `NotImplementedError`. -/
def gcs_load_entity_from_cids (_eid : Nat) (_cids : List (String × Nat)) :
    Except String PyEntity :=
  Except.error "NotImplementedError"

/-- The `SystemCommands` enum: instructions a handler returns to the
executor. -/
inductive SystemCommand where
  | SAVE_ENTITY : SystemCommand
  | DELETE_ENTITY : SystemCommand
  | BREAK : SystemCommand
deriving DecidableEq, Repr

/-- A backend call made by the executor loop, tagged with the matched
entity's id. -/
inductive BackendOp where
  | deleteE : Nat → BackendOp
  | updateE : Nat → BackendOp
deriving DecidableEq, Repr

/-- The backend calls one iteration of the executor loop makes for one
handler result: the `DELETE_ENTITY`-first, `elif SAVE_ENTITY` logic of
`_run_on_entities` and `EntityDB_SQLite.run`. -/
def iterationOps (eid : Nat) (commands : List SystemCommand) : List BackendOp :=
  if SystemCommand.DELETE_ENTITY ∈ commands then [BackendOp.deleteE eid]
  else if SystemCommand.SAVE_ENTITY ∈ commands then [BackendOp.updateE eid]
  else []

/-- The executor loop of `_run_on_entities` over the matched entities (each
paired with the command list its handler returned): apply each result's
commands and stop early on `BREAK`.  The value is the trace of backend calls
made. -/
def run_on_entities : List (Nat × List SystemCommand) → List BackendOp
  | [] => []
  | (eid, commands) :: rest =>
    if SystemCommand.BREAK ∈ commands then iterationOps eid commands
    else iterationOps eid commands ++ run_on_entities rest

/-- The registry keys written by `_register_component_type` are always the
registered class's `__name__`; states reachable through the API satisfy
this. -/
def wfRegistry (st : DBState) : Prop :=
  ∀ p ∈ st.registry, (p.2 : CompType).name = p.1

instance (st : DBState) : Decidable (wfRegistry st) := by
  unfold wfRegistry; infer_instance

/-- The type names of the components loaded on an entity. -/
def loadedNames (e : PyEntity) : List String :=
  e.comps.map (fun c => c.ctype.name)

/-- The invariant of claim C9: no component type name is simultaneously
loaded and recorded as unloaded. -/
def entityInv (e : PyEntity) : Prop :=
  ∀ n, n ∈ loadedNames e → n ∉ e.unloaded

instance (e : PyEntity) : Decidable (entityInv e) := by
  unfold entityInv loadedNames; infer_instance

/-! ### Association-list lemmas -/

theorem alookup_eq_none_iff {β : Type} (l : List (String × β)) (k : String) :
    alookup l k = none ↔ ∀ p ∈ l, p.1 ≠ k := by
  induction l with
  | nil => simp [alookup]
  | cons p rest ih =>
    obtain ⟨a, b⟩ := p
    by_cases h : a = k
    · simp [alookup, h]
    · simp [alookup, h, ih]

theorem alookup_isSome_iff {β : Type} (l : List (String × β)) (k : String) :
    (alookup l k).isSome ↔ k ∈ l.map Prod.fst := by
  induction l with
  | nil => simp [alookup]
  | cons p rest ih =>
    obtain ⟨a, b⟩ := p
    by_cases h : a = k
    · simp [alookup, h]
    · simp [alookup, h, ih, Ne.symm h]

theorem alookup_append_left {β : Type} (l1 l2 : List (String × β)) (k : String)
    (h : (alookup l1 k).isSome) : alookup (l1 ++ l2) k = alookup l1 k := by
  induction l1 with
  | nil => simp [alookup] at h
  | cons p rest ih =>
    obtain ⟨a, b⟩ := p
    by_cases hp : a = k
    · simp [alookup, hp]
    · simp only [alookup, hp, if_false] at h
      simp [alookup, hp, ih h]

theorem alookup_append_right {β : Type} (l1 l2 : List (String × β)) (k : String)
    (h : alookup l1 k = none) : alookup (l1 ++ l2) k = alookup l2 k := by
  induction l1 with
  | nil => simp
  | cons p rest ih =>
    obtain ⟨a, b⟩ := p
    by_cases hp : a = k
    · simp [alookup, hp] at h
    · simp only [alookup, hp, if_false] at h
      simp [alookup, hp, ih h]

theorem alookup_aupsert_self {β : Type} (l : List (String × β)) (k : String) (v : β) :
    alookup (aupsert l k v) k = some v := by
  induction l with
  | nil => simp [aupsert, alookup]
  | cons p rest ih =>
    obtain ⟨a, b⟩ := p
    by_cases hp : a = k
    · simp [aupsert, hp, alookup]
    · simp [aupsert, hp, alookup, ih]

theorem alookup_aupsert_ne {β : Type} (l : List (String × β)) (k : String) (v : β)
    (n : String) (h : n ≠ k) : alookup (aupsert l k v) n = alookup l n := by
  induction l with
  | nil => simp [aupsert, alookup, Ne.symm h]
  | cons p rest ih =>
    obtain ⟨a, b⟩ := p
    by_cases hp : a = k
    · have hpn : a ≠ n := by rw [hp]; exact Ne.symm h
      simp [aupsert, hp, alookup, hpn, Ne.symm h]
    · by_cases hn : a = n
      · simp [aupsert, hp, alookup, hn, h]
      · simp [aupsert, hp, alookup, hn, ih]

theorem aupsert_append_last {β : Type} (l1 : List (String × β)) (k : String)
    (v0 v : β) (h : alookup l1 k = none) :
    aupsert (l1 ++ [(k, v0)]) k v = l1 ++ [(k, v)] := by
  induction l1 with
  | nil => simp [aupsert]
  | cons p rest ih =>
    obtain ⟨a, b⟩ := p
    simp only [alookup] at h
    by_cases hp : a = k
    · simp [hp] at h
    · simp only [hp, if_false] at h
      simp [aupsert, hp, ih h]

/-! ### Shared concrete fixtures -/

def tA : CompType := { name := "A", schema := ["x"] }

def tB : CompType := { name := "B", schema := ["y"] }

def cA : Component := { ctype := tA, vars := [("x", Val.int 1)] }

def cB : Component := { ctype := tB, vars := [("y", Val.int 2)] }

/-! ### C10 -/

/-- C10: a system whose signature declares no required and no excluded
component types makes `run` and `count_matches` build an empty predicate and
issue the malformed statement `SELECT * FROM _entities WHERE ()`, so the call
fails with an error instead of matching every persisted entity. -/
theorem C10_empty_predicate_fails (s : SystemSig) (st : DBState)
    (hi : s.include_components = []) (he : s.exclude_components = []) :
    select_statement s = "SELECT * FROM _entities WHERE ()" ∧
    run_query_phase s st
      = Except.error "sqlite3.OperationalError: syntax error near ) " ∧
    count_matches s st
      = Except.error "sqlite3.OperationalError: syntax error near ) " := by
  have hc : whereClauses s = [] := by simp [whereClauses, hi, he]
  have hcc : count_whereClauses s = [] := by simp [count_whereClauses, hi, he]
  refine ⟨?_, ?_, ?_⟩
  · rw [select_statement, where_clause, hc]
    rfl
  · simp [run_query_phase, execSelect, hc, Except.map]
  · simp [count_matches, execSelectCount, hcc, Except.map]

def sysEmptyC10 : SystemSig :=
  { include_components := [], optional_components := [], exclude_components := [] }

/-- Witness for C10: the empty signature against the fresh database. -/
theorem C10_empty_predicate_fails_witness :
    select_statement sysEmptyC10 = "SELECT * FROM _entities WHERE ()" ∧
    run_query_phase sysEmptyC10 empty_db
      = Except.error "sqlite3.OperationalError: syntax error near ) " ∧
    count_matches sysEmptyC10 empty_db
      = Except.error "sqlite3.OperationalError: syntax error near ) " :=
  C10_empty_predicate_fails sysEmptyC10 empty_db rfl rfl

/-! ### C2 -/

theorem execSelectCount_eq_execSelect (s : SystemSig) (st : DBState) :
    execSelectCount s st = (execSelect s st).map List.length := by
  unfold execSelectCount execSelect
  have hcw : count_whereClauses s = whereClauses s := rfl
  rw [hcw]
  by_cases h0 : whereClauses s = []
  · rw [if_pos h0, if_pos h0]
    simp [Except.map]
  · rw [if_neg h0, if_neg h0]
    by_cases h1 : ∀ t ∈ s.include_components ++ s.exclude_components,
        t.name ∈ st.entTable.compCols
    · rw [dif_pos h1, dif_pos h1]
      simp [List.countP_eq_length_filter, Except.map]
    · rw [dif_neg h1, dif_neg h1]
      simp [Except.map]

/-- C2: for every system signature and database state, `count_matches` equals
the number of rows the query phase of `run` would yield (and errors exactly
when it errors), computed by the count-only `SELECT COUNT(*)` path that never
materializes an entity. -/
theorem C2_count_matches_agrees_with_query (s : SystemSig) (st : DBState) :
    count_matches s st
      = (run_query_phase s st).map (fun p => (p.1.length, p.2)) := by
  simp only [count_matches, run_query_phase]
  rw [execSelectCount_eq_execSelect]
  cases execSelect s (registerAll (get_components_from_signature s) st) <;> rfl

/-! ### C6 -/

def entC6 : PyEntity := { uid := some 1, comps := [cA], unloaded := [] }

/-- C6 (code bug): the package backends' unimplemented operations do fail
loudly — the inherited `delete_entity` and the object-store materialization
raise `NotImplementedError`, and the object-store `delete_entity` raises on
every input — but the legacy monolithic `EntityDB.delete_entity` returns
`False` and leaves the store untouched: a silent no-op, contradicting the
claim. -/
theorem C6_unimplemented_operations :
    delete_entity entC6 empty_db = Except.error "NotImplementedError" ∧
    gcs_load_entity_from_cids 1 [("A", 10)] = Except.error "NotImplementedError" ∧
    gcs_delete_entity (some 5) = Except.error "NotImplementedError" ∧
    gcs_delete_entity none = Except.error "AttributeError: uid" ∧
    legacy_delete_entity entC6 empty_db = Except.ok (false, empty_db) :=
  ⟨rfl, rfl, rfl, rfl, rfl⟩

/-! ### C8 -/

/-- C8: in the executor loop, a handler result containing `DELETE_ENTITY`
invokes the backend delete and no other entity command that iteration;
otherwise a result containing `SAVE_ENTITY` invokes the backend update; a
result containing `BREAK` halts iteration after applying that same result's
command, processing no further matched entities. -/
theorem C8_command_application (eid : Nat) (commands : List SystemCommand)
    (rest : List (Nat × List SystemCommand)) :
    (SystemCommand.DELETE_ENTITY ∈ commands →
      iterationOps eid commands = [BackendOp.deleteE eid]) ∧
    (SystemCommand.DELETE_ENTITY ∉ commands → SystemCommand.SAVE_ENTITY ∈ commands →
      iterationOps eid commands = [BackendOp.updateE eid]) ∧
    (SystemCommand.BREAK ∈ commands →
      run_on_entities ((eid, commands) :: rest) = iterationOps eid commands) ∧
    (SystemCommand.BREAK ∉ commands →
      run_on_entities ((eid, commands) :: rest)
        = iterationOps eid commands ++ run_on_entities rest) := by
  refine ⟨fun h => ?_, fun h1 h2 => ?_, fun h => ?_, fun h => ?_⟩
  · simp [iterationOps, h]
  · simp [iterationOps, h1, h2]
  · simp [run_on_entities, h]
  · simp [run_on_entities, h]

/-- Witness for C8: a delete-and-break result stops the loop after the
backend delete, skipping the remaining matched entity. -/
theorem C8_command_application_witness :
    run_on_entities [(5, [SystemCommand.DELETE_ENTITY, SystemCommand.BREAK]),
        (6, [SystemCommand.SAVE_ENTITY])] = [BackendOp.deleteE 5] := by
  have h := C8_command_application 5 [SystemCommand.DELETE_ENTITY, SystemCommand.BREAK]
      [(6, [SystemCommand.SAVE_ENTITY])]
  rw [h.2.2.1 (by decide), h.1 (by decide)]

/-! ### C7 -/

/-- C7: schema widening is additive and non-destructive — registering a type
name whose existing table already has columns `a` and `b` under the widened
field list `[a, b, c]` appends only the new column `c` and leaves the rows
untouched (so the stored `a`/`b` values are intact and `c` reads as NULL on
pre-existing rows), and the guarded column add is a no-op, not an error, for
a column that already exists. -/
theorem C7_schema_widening (st : DBState) (t : CompType) (a b c : String)
    (tbl : CompTable)
    (hreg : alookup st.registry t.name = none)
    (hsch : t.schema = [a, b, c])
    (htbl : alookup st.compTables t.name = some tbl)
    (ha : a ∈ tbl.cols) (hb : b ∈ tbl.cols) (hc : c ∉ tbl.cols) :
    alookup (register_component_type t st).2.compTables t.name
        = some { tbl with cols := tbl.cols ++ [c] } ∧
    (∀ r ∈ tbl.rows, alookup r.fields c = none → readField r c = Val.null) ∧
    (∀ tb : CompTable, ∀ col ∈ tb.cols, addColumnIfMissing tb col = tb) := by
  refine ⟨?_, ?_, ?_⟩
  · have h1 : addColumnIfMissing tbl a = tbl := by simp [addColumnIfMissing, ha]
    have h2 : addColumnIfMissing tbl b = tbl := by simp [addColumnIfMissing, hb]
    have h3 : addColumnIfMissing tbl c = { tbl with cols := tbl.cols ++ [c] } := by
      simp [addColumnIfMissing, hc]
    simp only [register_component_type, hreg, Option.isSome_none, Bool.false_eq_true,
      if_false, htbl, hsch, List.foldl_cons, List.foldl_nil, h1, h2, h3]
    exact alookup_aupsert_self _ _ _
  · intro r _ hnone
    simp [readField, hnone]
  · intro tb col hcol
    simp [addColumnIfMissing, hcol]

def tT : CompType := { name := "T", schema := ["a", "b", "c"] }

def tblT : CompTable :=
  { cols := ["a", "b"],
    rows := [{ uid := 3, ent := some 1, fields := [("a", Val.int 1), ("b", Val.int 2)] }] }

def stC7 : DBState :=
  { registry := [], entTable := { compCols := ["T"], rows := [] },
    compTables := [("T", tblT)] }

/-- Witness for C7: widening a two-column table to three columns at a
concrete state. -/
theorem C7_schema_widening_witness :
    alookup (register_component_type tT stC7).2.compTables tT.name
        = some { tblT with cols := tblT.cols ++ ["c"] } ∧
    (∀ r ∈ tblT.rows, alookup r.fields "c" = none → readField r "c" = Val.null) ∧
    (∀ tb : CompTable, ∀ col ∈ tb.cols, addColumnIfMissing tb col = tb) :=
  C7_schema_widening stC7 tT "a" "b" "c" tblT rfl rfl rfl
    (by decide) (by decide) (by decide)

/-! ### C4 -/

theorem update_components_cons_inv (e : PyEntity) (c : Component)
    (rest : List Component) (st : DBState) (X : Bool × DBState)
    (h : update_components e (c :: rest) st = Except.ok X) :
    ∃ u tbl, e.uid = some u ∧ c.vars ≠ [] ∧
      alookup st.compTables c.ctype.name = some tbl ∧
      (∀ p ∈ c.vars, p.1 ∈ tbl.cols) ∧
      update_components e rest
        { st with compTables :=
            aupsert st.compTables c.ctype.name (applyUpdate u c.vars tbl) }
        = Except.ok X := by
  unfold update_components at h
  cases hu : e.uid with
  | none =>
    simp only [hu] at h
    simp at h
  | some u =>
    simp only [hu] at h
    by_cases hv : c.vars = []
    · rw [if_pos hv] at h; simp at h
    · rw [if_neg hv] at h
      cases ht : alookup st.compTables c.ctype.name with
      | none =>
        simp only [ht] at h
        simp at h
      | some tbl =>
        simp only [ht] at h
        by_cases hcols : ∀ p ∈ c.vars, p.1 ∈ tbl.cols
        · rw [dif_pos hcols] at h
          exact ⟨u, tbl, rfl, hv, rfl, hcols, h⟩
        · rw [dif_neg hcols] at h; simp at h

theorem update_components_ok_true (e : PyEntity) (l : List Component)
    (st : DBState) (r : Bool × DBState)
    (h : update_components e l st = Except.ok r) : r.1 = true := by
  induction l generalizing st with
  | nil =>
    unfold update_components at h
    cases h
    rfl
  | cons c rest ih =>
    obtain ⟨u, tbl, _, _, _, _, hrest⟩ := update_components_cons_inv e c rest st r h
    exact ih _ hrest

theorem update_components_frame (e : PyEntity) (l : List Component)
    (st st' : DBState) (b : Bool)
    (hok : update_components e l st = Except.ok (b, st')) :
    st'.entTable = st.entTable ∧ st'.registry = st.registry ∧
    ∀ n, n ∉ l.map (fun c => c.ctype.name) →
      alookup st'.compTables n = alookup st.compTables n := by
  induction l generalizing st with
  | nil =>
    unfold update_components at hok
    cases hok
    exact ⟨rfl, rfl, fun _ _ => rfl⟩
  | cons c rest ih =>
    obtain ⟨u, tbl, hu, hv, ht, hcols, hrest⟩ :=
      update_components_cons_inv e c rest st (b, st') hok
    obtain ⟨h1, h2, h3⟩ := ih _ hrest
    refine ⟨h1, h2, fun n hn => ?_⟩
    simp only [List.map_cons, List.mem_cons, not_or] at hn
    rw [h3 n hn.2]
    exact alookup_aupsert_ne _ _ _ _ hn.1

theorem update_components_effect (e : PyEntity) (l : List Component)
    (st st' : DBState) (u : Nat) (b : Bool)
    (hu : e.uid = some u) (hnd : (l.map (fun c => c.ctype.name)).Nodup)
    (hok : update_components e l st = Except.ok (b, st')) :
    ∀ c ∈ l, ∃ tbl, alookup st.compTables c.ctype.name = some tbl ∧
      alookup st'.compTables c.ctype.name = some (applyUpdate u c.vars tbl) := by
  induction l generalizing st with
  | nil => simp
  | cons c0 rest ih =>
    obtain ⟨u', tbl, hu', hv, ht, hcols, hrest⟩ :=
      update_components_cons_inv e c0 rest st (b, st') hok
    have huu : u' = u := by
      rw [hu] at hu'
      exact (Option.some_inj.mp hu').symm
    subst huu
    simp only [List.map_cons, List.nodup_cons] at hnd
    intro c hc
    rcases List.mem_cons.mp hc with rfl | hc'
    · refine ⟨tbl, ht, ?_⟩
      obtain ⟨_, _, h3⟩ := update_components_frame e rest _ st' b hrest
      rw [h3 c.ctype.name hnd.1]
      exact alookup_aupsert_self _ _ _
    · have hne : c.ctype.name ≠ c0.ctype.name := by
        intro hx
        exact hnd.1 (hx ▸ List.mem_map_of_mem (fun c => c.ctype.name) hc')
      obtain ⟨tbl', ha, hb'⟩ := ih _ hnd.2 hrest c hc'
      refine ⟨tbl', ?_, hb'⟩
      rw [← ha]
      exact (alookup_aupsert_ne _ _ _ _ hne).symm

/-- C4 (corrected): `update_entity` overwrites, for every currently-loaded
component, the stored fields of that component's rows for the entity's
identifier, touches no other table and not the entity index, and always
reports `True` when it completes; it never returns `False` — on a
never-persisted entity with a loaded component it raises an error (the unset
`uid` attribute) instead of returning `False`. -/
theorem C4_update_entity (e : PyEntity) (st : DBState) :
    (∀ r, update_entity e st = Except.ok r → r.1 = true) ∧
    (e.uid = none → e.comps ≠ [] →
      update_entity e st = Except.error "AttributeError: uid") ∧
    (∀ u st', e.uid = some u → update_entity e st = Except.ok (true, st') →
      st'.entTable = st.entTable ∧ st'.registry = st.registry ∧
      (∀ n, n ∉ loadedNames e →
        alookup st'.compTables n = alookup st.compTables n) ∧
      ((loadedNames e).Nodup → ∀ c ∈ e.comps,
        ∃ tbl, alookup st.compTables c.ctype.name = some tbl ∧
          alookup st'.compTables c.ctype.name = some (applyUpdate u c.vars tbl))) := by
  refine ⟨?_, ?_, ?_⟩
  · intro r h
    exact update_components_ok_true e e.comps st r h
  · intro hu hne
    cases hc : e.comps with
    | nil => exact absurd hc hne
    | cons c rest =>
      unfold update_entity
      rw [hc]
      unfold update_components
      rw [hu]
  · intro u st' hu hok
    unfold update_entity at hok
    obtain ⟨h1, h2, h3⟩ := update_components_frame e e.comps st st' true hok
    refine ⟨h1, h2, h3, fun hnd => ?_⟩
    exact update_components_effect e e.comps st st' u true hu hnd hok

def unsavedEntity : PyEntity := { uid := none, comps := [cA], unloaded := [] }

/-- C4 counterexample: on a never-persisted entity with a loaded component,
`update_entity` raises (the `uid` attribute is unset) instead of returning
`False`; and on a never-persisted entity with no loaded component it returns
`True`, so it never returns `False` as the claim says. -/
theorem C4_counterexample :
    update_entity unsavedEntity empty_db = Except.error "AttributeError: uid" ∧
    update_entity { uid := none, comps := [], unloaded := [] } empty_db
      = Except.ok (true, empty_db) :=
  ⟨rfl, rfl⟩

def savedEntity : PyEntity := { uid := some 1, comps := [cA], unloaded := [] }

def tblA1 : CompTable :=
  { cols := ["x"],
    rows := [{ uid := 10, ent := some 1, fields := [("x", Val.int 5)] },
             { uid := 11, ent := some 2, fields := [("x", Val.int 6)] }] }

def stC4 : DBState :=
  { registry := [("A", tA)],
    entTable := { compCols := ["A"],
                  rows := [{ uid := 1, refs := [("A", 10)] },
                           { uid := 2, refs := [("A", 11)] }] },
    compTables := [("A", tblA1)] }

def stC4after : DBState :=
  { stC4 with compTables := aupsert stC4.compTables "A" (applyUpdate 1 cA.vars tblA1) }

/-- Witness for C4: the error branch at a concrete unsaved entity, and the
overwrite-and-frame branch at a concrete saved entity. -/
theorem C4_update_entity_witness :
    update_entity unsavedEntity stC4 = Except.error "AttributeError: uid" ∧
    (stC4after.entTable = stC4.entTable ∧
      ∃ tbl, alookup stC4.compTables "A" = some tbl ∧
        alookup stC4after.compTables "A" = some (applyUpdate 1 cA.vars tbl)) := by
  have hok : update_entity savedEntity stC4 = Except.ok (true, stC4after) := by decide
  have h := (C4_update_entity savedEntity stC4).2.2 1 stC4after rfl hok
  refine ⟨(C4_update_entity unsavedEntity stC4).2.1 rfl (by decide), h.1, ?_⟩
  have := h.2.2.2 (by decide) cA (by decide)
  exact this

/-! ### Materialization lemmas (shared by C5 and C9) -/

theorem loadedNames_dictInsert (comps : List Component) (c : Component) (n : String)
    (h : n ∈ (dictInsert comps c).map (fun c0 => c0.ctype.name)) :
    n ∈ comps.map (fun c0 => c0.ctype.name) ∨ n = c.ctype.name := by
  unfold dictInsert at h
  by_cases hx : comps.any (fun c0 => c0.ctype = c.ctype)
  · rw [if_pos hx] at h
    rw [List.map_map, List.mem_map] at h
    obtain ⟨c0, hc0, hn⟩ := h
    by_cases he : c0.ctype = c.ctype
    · right
      simp only [Function.comp, if_pos he] at hn
      exact hn.symm
    · left
      simp only [Function.comp, if_neg he] at hn
      exact hn ▸ List.mem_map_of_mem (fun c0 => c0.ctype.name) hc0
  · rw [if_neg hx, List.map_append, List.mem_append] at h
    rcases h with h | h
    · exact Or.inl h
    · simp at h
      exact Or.inr h

theorem dictInsert_mem_of_ne (comps : List Component) (c c0 : Component)
    (hc : c ∈ comps) (hne : c.ctype ≠ c0.ctype) : c ∈ dictInsert comps c0 := by
  unfold dictInsert
  by_cases hx : comps.any (fun x => x.ctype = c0.ctype)
  · rw [if_pos hx]
    have : (fun x => if x.ctype = c0.ctype then c0 else x) c = c := by
      simp [hne]
    rw [← this]
    exact List.mem_map_of_mem _ hc
  · rw [if_neg hx]
    exact List.mem_append_left _ hc

theorem dictInsert_mem_self (comps : List Component) (c : Component) :
    c ∈ dictInsert comps c := by
  unfold dictInsert
  by_cases hx : comps.any (fun x => x.ctype = c.ctype)
  · rw [if_pos hx]
    rw [List.any_eq_true] at hx
    obtain ⟨x, hxm, hxe⟩ := hx
    rw [List.mem_map]
    refine ⟨x, hxm, ?_⟩
    simp only [decide_eq_true_eq] at hxe
    simp [hxe]
  · rw [if_neg hx]
    exact List.mem_append_right _ (by simp)

theorem alookup_mem {β : Type} (l : List (String × β)) (k : String) (v : β)
    (h : alookup l k = some v) : (k, v) ∈ l := by
  induction l with
  | nil => simp [alookup] at h
  | cons p rest ih =>
    obtain ⟨a, b⟩ := p
    by_cases hp : a = k
    · subst hp
      have hb : b = v := by simpa [alookup] using h
      simp [hb]
    · simp only [alookup, hp, if_false] at h
      exact List.mem_cons_of_mem _ (ih h)

theorem core_cons_inv (n : String) (rest : List String) (row : EntityRow)
    (st : DBState) (acc ent : PyEntity)
    (hok : load_entity_from_ids_core (n :: rest) row st acc = Except.ok ent) :
    (∃ t tbl, alookup st.registry n = some t ∧
      alookup st.compTables n = some tbl ∧
      ((∃ crow, fetchRowByUid tbl (alookup row.refs n) = some crow ∧
          load_entity_from_ids_core rest row st
            { acc with
              comps := dictInsert acc.comps (create_component_from_data t tbl crow),
              uid := crow.ent } = Except.ok ent) ∨
        (fetchRowByUid tbl (alookup row.refs n) = none ∧
          load_entity_from_ids_core rest row st acc = Except.ok ent))) ∨
    (alookup st.registry n = none ∧
      load_entity_from_ids_core rest row st
        { acc with unloaded := acc.unloaded ++ [n] } = Except.ok ent) := by
  unfold load_entity_from_ids_core at hok
  cases hr : alookup st.registry n with
  | some t =>
    simp only [hr] at hok
    cases ht : alookup st.compTables n with
    | none =>
      simp only [ht] at hok
      simp at hok
    | some tbl =>
      simp only [ht] at hok
      cases hf : fetchRowByUid tbl (alookup row.refs n) with
      | none =>
        simp only [hf] at hok
        exact Or.inl ⟨t, tbl, rfl, rfl, Or.inr ⟨hf, hok⟩⟩
      | some crow =>
        simp only [hf] at hok
        exact Or.inl ⟨t, tbl, rfl, rfl, Or.inl ⟨crow, hf, hok⟩⟩
  | none =>
    simp only [hr] at hok
    exact Or.inr ⟨rfl, hok⟩

theorem core_unloaded (names : List String) (row : EntityRow) (st : DBState)
    (acc ent : PyEntity)
    (hok : load_entity_from_ids_core names row st acc = Except.ok ent) :
    ent.unloaded
      = acc.unloaded ++ names.filter (fun n => alookup st.registry n = none) := by
  induction names generalizing acc with
  | nil =>
    unfold load_entity_from_ids_core at hok
    cases hok
    simp
  | cons n rest ih =>
    rcases core_cons_inv n rest row st acc ent hok with
      ⟨t, tbl, hr, ht, ⟨crow, hf, hrest⟩ | ⟨hf, hrest⟩⟩ | ⟨hr, hrest⟩
    · rw [ih _ hrest]
      simp [List.filter_cons, hr]
    · rw [ih _ hrest]
      simp [List.filter_cons, hr]
    · rw [ih _ hrest]
      simp [List.filter_cons, hr]

theorem core_loaded_subset (names : List String) (row : EntityRow) (st : DBState)
    (acc ent : PyEntity) (hw : wfRegistry st)
    (hok : load_entity_from_ids_core names row st acc = Except.ok ent) :
    ∀ n, n ∈ loadedNames ent →
      n ∈ loadedNames acc ∨ (alookup st.registry n).isSome := by
  induction names generalizing acc with
  | nil =>
    unfold load_entity_from_ids_core at hok
    cases hok
    exact fun n hn => Or.inl hn
  | cons m rest ih =>
    rcases core_cons_inv m rest row st acc ent hok with
      ⟨t, tbl, hr, ht, ⟨crow, hf, hrest⟩ | ⟨hf, hrest⟩⟩ | ⟨hr, hrest⟩
    · intro n hn
      rcases ih _ hrest n hn with hacc | hreg
      · simp only [loadedNames] at hacc
        rcases loadedNames_dictInsert acc.comps _ n hacc with h1 | h1
        · exact Or.inl h1
        · right
          have htm : t.name = m := hw _ (alookup_mem _ _ _ hr)
          have hcn : (create_component_from_data t tbl crow).ctype.name = t.name := rfl
          rw [h1, hcn, htm, hr]
          rfl
      · exact Or.inr hreg
    · exact ih _ hrest
    · intro n hn
      rcases ih _ hrest n hn with hacc | hreg
      · exact Or.inl hacc
      · exact Or.inr hreg

theorem core_preserves (names : List String) (row : EntityRow) (st : DBState)
    (acc ent : PyEntity) (c : Component) (hw : wfRegistry st)
    (hc : c ∈ acc.comps) (hn : c.ctype.name ∉ names)
    (hok : load_entity_from_ids_core names row st acc = Except.ok ent) :
    c ∈ ent.comps := by
  induction names generalizing acc with
  | nil =>
    unfold load_entity_from_ids_core at hok
    cases hok
    exact hc
  | cons m rest ih =>
    simp only [List.mem_cons, not_or] at hn
    rcases core_cons_inv m rest row st acc ent hok with
      ⟨t, tbl, hr, ht, ⟨crow, hf, hrest⟩ | ⟨hf, hrest⟩⟩ | ⟨hr, hrest⟩
    · refine ih _ ?_ hn.2 hrest
      have htm : t.name = m := hw _ (alookup_mem _ _ _ hr)
      refine dictInsert_mem_of_ne _ _ _ hc ?_
      intro hx
      apply hn.1
      have : c.ctype.name = (create_component_from_data t tbl crow).ctype.name := by
        rw [hx]
      rw [this]
      exact htm
    · exact ih _ hc hn.2 hrest
    · exact ih { acc with unloaded := acc.unloaded ++ [m] } hc hn.2 hrest

theorem core_loads (names : List String) (row : EntityRow) (st : DBState)
    (acc ent : PyEntity) (hw : wfRegistry st) (hnd : names.Nodup)
    (hok : load_entity_from_ids_core names row st acc = Except.ok ent) :
    ∀ n ∈ names, ∀ t tbl crow,
      alookup st.registry n = some t → alookup st.compTables n = some tbl →
      fetchRowByUid tbl (alookup row.refs n) = some crow →
      create_component_from_data t tbl crow ∈ ent.comps := by
  induction names generalizing acc with
  | nil => simp
  | cons m rest ih =>
    rw [List.nodup_cons] at hnd
    intro n hnmem t tbl crow hr ht hf
    rcases List.mem_cons.mp hnmem with rfl | hn'
    · rcases core_cons_inv n rest row st acc ent hok with
        ⟨t', tbl', hr', ht', ⟨crow', hf', hrest⟩ | ⟨hf', hrest⟩⟩ | ⟨hr', hrest⟩
      · rw [hr] at hr'
        rw [ht] at ht'
        cases hr'
        cases ht'
        rw [hf] at hf'
        cases hf'
        refine core_preserves rest row st _ ent _ hw (dictInsert_mem_self _ _) ?_ hrest
        have hcn : (create_component_from_data t tbl crow).ctype.name = t.name := rfl
        rw [hcn, hw _ (alookup_mem _ _ _ hr)]
        exact hnd.1
      · rw [ht] at ht'
        cases ht'
        rw [hf] at hf'
        cases hf'
      · rw [hr] at hr'
        cases hr'
    · rcases core_cons_inv m rest row st acc ent hok with
        ⟨t', tbl', hr', ht', ⟨crow', hf', hrest⟩ | ⟨hf', hrest⟩⟩ | ⟨hr', hrest⟩
      · exact ih _ hnd.2 hrest n hn' t tbl crow hr ht hf
      · exact ih _ hnd.2 hrest n hn' t tbl crow hr ht hf
      · exact ih _ hnd.2 hrest n hn' t tbl crow hr ht hf

theorem core_ok (names : List String) (row : EntityRow) (st : DBState)
    (acc : PyEntity)
    (ht : ∀ n ∈ names, (alookup st.registry n).isSome →
      (alookup st.compTables n).isSome) :
    ∃ ent, load_entity_from_ids_core names row st acc = Except.ok ent := by
  induction names generalizing acc with
  | nil => exact ⟨acc, rfl⟩
  | cons n rest ih =>
    have ht' : ∀ m ∈ rest, (alookup st.registry m).isSome →
        (alookup st.compTables m).isSome :=
      fun m hm => ht m (List.mem_cons_of_mem _ hm)
    cases hr : alookup st.registry n with
    | some t =>
      have hts : (alookup st.compTables n).isSome := by
        apply ht n (List.mem_cons_self n rest)
        rw [hr]
        rfl
      cases htb : alookup st.compTables n with
      | none => rw [htb] at hts; simp at hts
      | some tbl =>
        cases hf : fetchRowByUid tbl (alookup row.refs n) with
        | none =>
          obtain ⟨ent, hent⟩ := ih acc ht'
          refine ⟨ent, ?_⟩
          unfold load_entity_from_ids_core
          simp only [hr, htb, hf]
          exact hent
        | some crow =>
          obtain ⟨ent, hent⟩ := ih _ ht'
          refine ⟨ent, ?_⟩
          unfold load_entity_from_ids_core
          simp only [hr, htb, hf]
          exact hent
    | none =>
      obtain ⟨ent, hent⟩ := ih _ ht'
      refine ⟨ent, ?_⟩
      unfold load_entity_from_ids_core
      simp only [hr]
      exact hent

theorem nodup_not_mem_erase (a : String) (l : List String) (h : l.Nodup) :
    a ∉ l.erase a := by
  intro hmem
  have h1 : 0 < (l.erase a).count a := List.count_pos_iff.mpr hmem
  rw [List.count_erase_self] at h1
  have h2 : l.count a ≤ 1 := List.nodup_iff_count_le_one.mp h a
  omega

/-! ### C5 -/

/-- C5 (corrected): materialization ignores the descriptor — the entity
handed to the handler carries as loaded components every registered component
type whose row the index record successfully references, not just the types
the descriptor requested; only component-type names missing from the registry
are left as unloaded markers. -/
theorem C5_materialization_loads_all (row : EntityRow) (st : DBState)
    (ent : PyEntity) (hw : wfRegistry st) (hnd : st.entTable.compCols.Nodup)
    (hok : load_entity_from_ids row st = Except.ok ent) :
    ent.unloaded
      = st.entTable.compCols.filter (fun n => alookup st.registry n = none) ∧
    (∀ n ∈ st.entTable.compCols, ∀ t tbl crow,
      alookup st.registry n = some t → alookup st.compTables n = some tbl →
      fetchRowByUid tbl (alookup row.refs n) = some crow →
      create_component_from_data t tbl crow ∈ ent.comps) := by
  unfold load_entity_from_ids at hok
  constructor
  · have h := core_unloaded _ row st _ ent hok
    simpa using h
  · exact core_loads _ row st _ ent hw hnd hok

def stC5 : DBState :=
  { registry := [("A", tA), ("B", tB)],
    entTable := { compCols := ["A", "B"],
                  rows := [{ uid := 1, refs := [("A", 10), ("B", 20)] }] },
    compTables :=
      [("A", { cols := ["x"],
               rows := [{ uid := 10, ent := some 1, fields := [("x", Val.int 1)] }] }),
       ("B", { cols := ["y"],
               rows := [{ uid := 20, ent := some 1, fields := [("y", Val.int 2)] }] })] }

def rowC5 : EntityRow := { uid := 1, refs := [("A", 10), ("B", 20)] }

def sysA : SystemSig :=
  { include_components := [tA], optional_components := [], exclude_components := [] }

def entC5 : PyEntity :=
  { uid := some 1,
    comps := [{ ctype := tA, cuid := none, vars := [("x", Val.int 1)] },
              { ctype := tB, cuid := none, vars := [("y", Val.int 2)] }],
    unloaded := [] }

/-- C5 counterexample: a descriptor requiring only `A` matches an entity that
also holds `B` (with `B` registered); the materialized entity handed to the
handler carries `B` as a loaded component, not as an unloaded marker, even
though the descriptor never mentioned `B`. -/
theorem C5_counterexample :
    run_query_phase sysA stC5 = Except.ok ([rowC5], stC5) ∧
    load_entity_from_ids rowC5 stC5 = Except.ok entC5 ∧
    tB ∉ sysA.include_components ++ sysA.optional_components ∧
    "B" ∈ loadedNames entC5 ∧ "B" ∉ entC5.unloaded := by decide

/-- Witness for C5's corrected statement at the same concrete store. -/
theorem C5_materialization_loads_all_witness :
    entC5.unloaded
      = stC5.entTable.compCols.filter (fun n => alookup stC5.registry n = none) ∧
    (∀ n ∈ stC5.entTable.compCols, ∀ t tbl crow,
      alookup stC5.registry n = some t → alookup stC5.compTables n = some tbl →
      fetchRowByUid tbl (alookup rowC5.refs n) = some crow →
      create_component_from_data t tbl crow ∈ entC5.comps) :=
  C5_materialization_loads_all rowC5 stC5 entC5 (by decide) (by decide) (by decide)

/-! ### C9 -/

/-- C9: an index record referencing a component-type name unknown to the
registry leaves that type visible only through `unloadedComponentNames`,
never in the loaded components map; for every materialized entity a component
type appears in at most one of `components` and `unloadedComponentNames`, and
`load_component` preserves that invariant. -/
theorem C9_unloaded_component_invariant :
    (∀ row st ent, wfRegistry st → load_entity_from_ids row st = Except.ok ent →
      (∀ n ∈ st.entTable.compCols, alookup st.registry n = none →
        n ∈ ent.unloaded ∧ n ∉ loadedNames ent) ∧ entityInv ent) ∧
    (∀ e t st b e' st', entityInv e → e.unloaded.Nodup →
      load_component e t st = Except.ok (b, e', st') → entityInv e') := by
  constructor
  · intro row st ent hw hok
    unfold load_entity_from_ids at hok
    have hunl := core_unloaded _ row st _ ent hok
    simp only [List.nil_append] at hunl
    have hsub := core_loaded_subset _ row st _ ent hw hok
    constructor
    · intro n hn hr
      constructor
      · rw [hunl]
        exact List.mem_filter.mpr ⟨hn, by simp [hr]⟩
      · intro hl
        rcases hsub n hl with h | h
        · simp [loadedNames] at h
        · rw [hr] at h
          simp at h
    · intro n hl
      rcases hsub n hl with h | h
      · simp [loadedNames] at h
      · rw [hunl]
        intro hmem
        have h2 := (List.mem_filter.mp hmem).2
        simp only [decide_eq_true_eq] at h2
        rw [h2] at h
        simp at h
  · intro e t st b e' st' hinv hnd hok
    unfold load_component at hok
    cases hu : e.uid with
    | none =>
      simp only [hu] at hok
      simp at hok
    | some u =>
      simp only [hu] at hok
      cases ht : alookup (register_component_type t st).2.compTables t.name with
      | none =>
        simp only [ht] at hok
        simp at hok
      | some tbl =>
        simp only [ht] at hok
        cases hf : tbl.rows.find? (fun r => r.ent = some u) with
        | none =>
          simp only [hf] at hok
          simp only [Except.ok.injEq, Prod.mk.injEq] at hok
          obtain ⟨_, he, _⟩ := hok
          rw [← he]
          exact hinv
        | some crow =>
          simp only [hf] at hok
          simp only [Except.ok.injEq, Prod.mk.injEq] at hok
          obtain ⟨_, he, _⟩ := hok
          rw [← he]
          intro n hl
          simp only [loadedNames] at hl
          rcases loadedNames_dictInsert e.comps _ n hl with h1 | h1
          · have hne := hinv n h1
            intro hmem
            exact hne (List.mem_of_mem_erase hmem)
          · have hcn : (create_component_from_data t tbl crow).ctype.name = t.name := rfl
            rw [h1, hcn]
            exact nodup_not_mem_erase t.name e.unloaded hnd

def stC9 : DBState :=
  { registry := [("A", tA)],
    entTable := { compCols := ["A", "Ghost"],
                  rows := [{ uid := 1, refs := [("A", 10), ("Ghost", 99)] }] },
    compTables :=
      [("A", { cols := ["x"],
               rows := [{ uid := 10, ent := some 1, fields := [("x", Val.int 1)] }] })] }

def rowC9 : EntityRow := { uid := 1, refs := [("A", 10), ("Ghost", 99)] }

def entC9 : PyEntity :=
  { uid := some 1,
    comps := [{ ctype := tA, cuid := none, vars := [("x", Val.int 1)] }],
    unloaded := ["Ghost"] }

/-- Witness for C9: a store whose index references the unregistered type name
`Ghost`; the materialized entity records it only as unloaded. -/
theorem C9_unloaded_component_invariant_witness :
    "Ghost" ∈ entC9.unloaded ∧ "Ghost" ∉ loadedNames entC9 ∧ entityInv entC9 := by
  have h := (C9_unloaded_component_invariant).1 rowC9 stC9 entC9 (by decide) (by decide)
  have hg := h.1 "Ghost" (by decide) (by decide)
  exact ⟨hg.1, hg.2, h.2⟩

/-! ### C1 -/

theorem registerAll_cons (t : CompType) (rest : List CompType) (st : DBState) :
    registerAll (t :: rest) st = registerAll rest (register_component_type t st).2 :=
  rfl

theorem register_rows (t : CompType) (st : DBState) :
    (register_component_type t st).2.entTable.rows = st.entTable.rows := by
  unfold register_component_type
  by_cases h : (alookup st.registry t.name).isSome
  · rw [if_pos h]
  · rw [if_neg h]
    simp only [addEntityColumnIfMissing]
    by_cases hc : t.name ∈ st.entTable.compCols <;> simp [hc]

theorem registerAll_rows (ts : List CompType) (st : DBState) :
    (registerAll ts st).entTable.rows = st.entTable.rows := by
  induction ts generalizing st with
  | nil => rfl
  | cons t rest ih =>
    rw [registerAll_cons, ih, register_rows]

/-- C1 (corrected): provided the descriptor names at least one required or
excluded component type and every predicate column exists in the index table
after registration, the query phase of `run` returns exactly the index rows
that hold every required type and none of the excluded types — the pure
conjunction of `IS NOT NULL` and `IS NULL` clauses, optional types imposing
no predicate.  With both sets empty the call errors instead (see the
counterexample). -/
theorem C1_query_correctness (s : SystemSig) (st : DBState)
    (h0 : whereClauses s ≠ [])
    (hcols : ∀ t ∈ s.include_components ++ s.exclude_components,
      t.name ∈ (registerAll (get_components_from_signature s) st).entTable.compCols) :
    run_query_phase s st
      = Except.ok
          (((registerAll (get_components_from_signature s) st).entTable.rows).filter
            (fun r => spec_matches s r),
           registerAll (get_components_from_signature s) st) ∧
    ∀ r, spec_matches s r = true ↔
      ((∀ t ∈ s.include_components, rowHolds r t.name = true) ∧
       (∀ t ∈ s.exclude_components, rowHolds r t.name = false)) := by
  constructor
  · simp only [run_query_phase, execSelect]
    rw [if_neg h0, dif_pos hcols]
    rfl
  · intro r
    rw [spec_matches, Bool.and_eq_true, List.all_eq_true, List.all_eq_true]
    constructor
    · rintro ⟨h1, h2⟩
      exact ⟨fun t ht => h1 t ht, fun t ht => by simpa using h2 t ht⟩
    · rintro ⟨h1, h2⟩
      exact ⟨fun t ht => h1 t ht, fun t ht => by simp [h2 t ht]⟩

def stC1 : DBState :=
  { registry := [("A", tA)],
    entTable := { compCols := ["A"], rows := [{ uid := 1, refs := [("A", 10)] }] },
    compTables :=
      [("A", { cols := ["x"],
               rows := [{ uid := 10, ent := some 1, fields := [("x", Val.int 1)] }] })] }

def rowC1 : EntityRow := { uid := 1, refs := [("A", 10)] }

/-- C1 counterexample: for a descriptor with no required and no excluded
types, every persisted entity vacuously satisfies the claimed conjunction,
yet the query phase of `run` raises a SQL syntax error instead of returning
the entity. -/
theorem C1_counterexample :
    spec_matches sysEmptyC10 rowC1 = true ∧
    stC1.entTable.rows = [rowC1] ∧
    run_query_phase sysEmptyC10 stC1
      = Except.error "sqlite3.OperationalError: syntax error near ) " := by decide

/-- Witness for C1's corrected statement: a one-required-type descriptor on a
concrete store. -/
theorem C1_query_correctness_witness :
    run_query_phase sysA stC1
      = Except.ok
          (((registerAll (get_components_from_signature sysA) stC1).entTable.rows).filter
            (fun r => spec_matches sysA r),
           registerAll (get_components_from_signature sysA) stC1) :=
  (C1_query_correctness sysA stC1 (by decide) (by decide)).1

/-! ### C3 machinery -/

theorem alookup_map_eq_none {α β : Type} (l : List α) (f : α → String) (g : α → β)
    (k : String) (hk : k ∉ l.map f) :
    alookup (l.map (fun a => (f a, g a))) k = none := by
  rw [alookup_eq_none_iff]
  intro p hp
  rw [List.mem_map] at hp
  obtain ⟨a, ha, rfl⟩ := hp
  intro he
  exact hk (he ▸ List.mem_map_of_mem f ha)

theorem alookup_map_of_mem {α β : Type} (l : List α) (f : α → String) (g : α → β)
    (x : α) (hx : x ∈ l) (hnd : (l.map f).Nodup) :
    alookup (l.map (fun a => (f a, g a))) (f x) = some (g x) := by
  induction l with
  | nil => simp at hx
  | cons a rest ih =>
    rw [List.map_cons, List.nodup_cons] at hnd
    rcases List.mem_cons.mp hx with rfl | hx'
    · simp [alookup]
    · have hne : f a ≠ f x := by
        intro he
        exact hnd.1 (he ▸ List.mem_map_of_mem f hx')
      simp only [List.map_cons, alookup, hne, if_false]
      exact ih hx' hnd.2

theorem alookup_map_self {β : Type} (l : List String) (g : String → β) (k : String)
    (hk : k ∈ l) :
    alookup (l.map (fun c => (c, g c))) k = some (g k) := by
  induction l with
  | nil => simp at hk
  | cons a rest ih =>
    by_cases ha : a = k
    · subst ha
      simp [alookup]
    · rcases List.mem_cons.mp hk with rfl | hk'
      · exact absurd rfl ha
      · simp only [List.map_cons, alookup, ha, if_false]
        exact ih hk'

theorem aupsert_absent {β : Type} (l : List (String × β)) (k : String) (v : β)
    (h : alookup l k = none) : aupsert l k v = l ++ [(k, v)] := by
  induction l with
  | nil => simp [aupsert]
  | cons p rest ih =>
    obtain ⟨a, b⟩ := p
    simp only [alookup] at h
    by_cases hp : a = k
    · simp [hp] at h
    · simp only [hp, if_false] at h
      simp [aupsert, hp, ih h]

theorem foldl_addColumn_fresh (names : List String) (tbl : CompTable)
    (h : ∀ n ∈ names, n ∉ tbl.cols) (hnd : names.Nodup) :
    names.foldl addColumnIfMissing tbl = { tbl with cols := tbl.cols ++ names } := by
  induction names generalizing tbl with
  | nil => simp
  | cons n rest ih =>
    rw [List.foldl_cons, List.nodup_cons] at *
    have h1 : addColumnIfMissing tbl n = { tbl with cols := tbl.cols ++ [n] } := by
      simp [addColumnIfMissing, h n (List.mem_cons_self n rest)]
    rw [h1, ih]
    · simp
    · intro m hm
      simp only [List.mem_append, List.mem_singleton, not_or]
      exact ⟨h m (List.mem_cons_of_mem _ hm), fun he => hnd.1 (he ▸ hm)⟩
    · exact hnd.2

theorem register_fresh (t : CompType) (st : DBState)
    (hreg : alookup st.registry t.name = none)
    (htbl : alookup st.compTables t.name = none)
    (hcol : t.name ∉ st.entTable.compCols)
    (hsch : t.schema.Nodup) :
    register_component_type t st
      = (true,
         { registry := st.registry ++ [(t.name, t)],
           entTable := { st.entTable with
                         compCols := st.entTable.compCols ++ [t.name] },
           compTables := st.compTables ++ [(t.name, { cols := t.schema, rows := [] })] }) := by
  unfold register_component_type
  rw [hreg]
  simp only [Option.isSome_none, Bool.false_eq_true, if_false, htbl]
  rw [foldl_addColumn_fresh t.schema { cols := [], rows := [] } (by simp) hsch]
  rw [aupsert_absent _ _ _ htbl]
  simp only [addEntityColumnIfMissing, hcol, if_false]
  simp

def addedRegistry (pairs : List (Component × Nat)) : List (String × CompType) :=
  pairs.map (fun p => (p.1.ctype.name, p.1.ctype))

def addedTables (pairs : List (Component × Nat)) (eUid : Nat) :
    List (String × CompTable) :=
  pairs.map (fun p => (p.1.ctype.name,
    { cols := p.1.ctype.schema,
      rows := [{ uid := p.2, ent := some eUid, fields := p.1.vars }] }))

def addedState (pairs : List (Component × Nat)) (eUid : Nat) : DBState :=
  { registry := addedRegistry pairs,
    entTable := { compCols := pairs.map (fun p => p.1.ctype.name), rows := [] },
    compTables := addedTables pairs eUid }

theorem addComponents_spec (todo done : List (Component × Nat)) (eUid : Nat)
    (hnd : ((done ++ todo).map (fun p => p.1.ctype.name)).Nodup)
    (hwf : ∀ p ∈ todo,
      p.1.vars.map Prod.fst = p.1.ctype.schema ∧ p.1.ctype.schema.Nodup) :
    addComponents todo eUid (addedState done eUid)
      = Except.ok (addedState (done ++ todo) eUid) := by
  induction todo generalizing done with
  | nil => simp [addComponents]
  | cons pc rest ih =>
    obtain ⟨c, cid⟩ := pc
    have hwfc := hwf (c, cid) (List.mem_cons_self _ _)
    have hfresh : c.ctype.name ∉ done.map (fun p => p.1.ctype.name) := by
      rw [List.map_append] at hnd
      have hd := List.disjoint_of_nodup_append hnd
      intro hmem
      exact hd hmem (by simp)
    have hreg0 : alookup (addedState done eUid).registry c.ctype.name = none :=
      alookup_map_eq_none done _ _ _ hfresh
    have htbl0 : alookup (addedState done eUid).compTables c.ctype.name = none :=
      alookup_map_eq_none done _ _ _ hfresh
    have hcol0 : c.ctype.name ∉ (addedState done eUid).entTable.compCols := hfresh
    have hstep := register_fresh c.ctype (addedState done eUid) hreg0 htbl0 hcol0 hwfc.2
    have hvars : ∀ p ∈ c.vars, p.1 ∈ c.ctype.schema := by
      intro p hp
      rw [← hwfc.1]
      exact List.mem_map_of_mem Prod.fst hp
    rw [addComponents, hstep]
    have hlook :
        alookup ((addedState done eUid).compTables
            ++ [(c.ctype.name, { cols := c.ctype.schema, rows := [] })]) c.ctype.name
          = some { cols := c.ctype.schema, rows := [] } := by
      rw [alookup_append_right _ _ _ htbl0]
      simp [alookup]
    simp only [hlook]
    rw [compInsert]
    rw [dif_pos hvars]
    simp only [List.any_nil, Bool.false_eq_true, if_false, List.nil_append]
    rw [aupsert_append_last _ _ _ _ htbl0]
    have hstate :
        ({ registry := (addedState done eUid).registry ++ [(c.ctype.name, c.ctype)],
           entTable := { (addedState done eUid).entTable with
                         compCols := (addedState done eUid).entTable.compCols
                           ++ [c.ctype.name] },
           compTables := (addedState done eUid).compTables
             ++ [(c.ctype.name,
                  { cols := c.ctype.schema,
                    rows := [{ uid := cid, ent := some eUid, fields := c.vars }] })] }
          : DBState)
          = addedState (done ++ [(c, cid)]) eUid := by
      simp [addedState, addedRegistry, addedTables]
    rw [hstate]
    have hnd' : (((done ++ [(c, cid)]) ++ rest).map (fun p => p.1.ctype.name)).Nodup := by
      rw [List.append_assoc]
      simpa using hnd
    have hwf' : ∀ p ∈ rest,
        p.1.vars.map Prod.fst = p.1.ctype.schema ∧ p.1.ctype.schema.Nodup :=
      fun p hp => hwf p (List.mem_cons_of_mem _ hp)
    rw [ih (done ++ [(c, cid)]) hnd' hwf']
    rw [List.append_assoc]
    simp

theorem zip_map_names (comps : List Component) (cUids : List Nat)
    (hlen : cUids.length = comps.length) :
    (comps.zip cUids).map (fun p => p.1.ctype.name)
      = comps.map (fun c => c.ctype.name) := by
  induction comps generalizing cUids with
  | nil => simp
  | cons c rest ih =>
    cases cUids with
    | nil => simp at hlen
    | cons u us =>
      simp only [List.length_cons] at hlen
      simp [ih us (by omega)]

theorem zip_names_refs (comps : List Component) (cUids : List Nat)
    (hlen : cUids.length = comps.length) :
    (comps.map (fun c => c.ctype.name)).zip cUids
      = (comps.zip cUids).map (fun p => (p.1.ctype.name, p.2)) := by
  induction comps generalizing cUids with
  | nil => simp
  | cons c rest ih =>
    cases cUids with
    | nil => simp at hlen
    | cons u us =>
      simp only [List.length_cons] at hlen
      simp [ih us (by omega)]

def addedEntityRow (pairs : List (Component × Nat)) (eUid : Nat) : EntityRow :=
  { uid := eUid, refs := pairs.map (fun p => (p.1.ctype.name, p.2)) }

def addedStateFull (pairs : List (Component × Nat)) (eUid : Nat) : DBState :=
  { registry := addedRegistry pairs,
    entTable := { compCols := pairs.map (fun p => p.1.ctype.name),
                  rows := [addedEntityRow pairs eUid] },
    compTables := addedTables pairs eUid }

theorem add_entity_from_empty (comps : List Component) (eUid : Nat) (cUids : List Nat)
    (hlen : cUids.length = comps.length)
    (hnames : (comps.map (fun c => c.ctype.name)).Nodup)
    (hwf : ∀ c ∈ comps,
      c.vars.map Prod.fst = c.ctype.schema ∧ c.ctype.schema.Nodup) :
    add_entity eUid cUids { uid := none, comps := comps, unloaded := [] } empty_db
      = Except.ok (eUid,
          { uid := some eUid,
            comps := (comps.zip cUids).map (fun p => { p.1 with cuid := some p.2 }),
            unloaded := [] },
          addedStateFull (comps.zip cUids) eUid) := by
  have hpm : (comps.zip cUids).map (fun p => p.1.ctype.name)
      = comps.map (fun c => c.ctype.name) := zip_map_names comps cUids hlen
  have h1 : addComponents (comps.zip cUids) eUid empty_db
      = Except.ok (addedState (comps.zip cUids) eUid) := by
    have h := addComponents_spec (comps.zip cUids) [] eUid
      (by simpa [hpm] using hnames)
      (fun p hp => hwf p.1 (List.of_mem_zip hp).1)
    simpa using h
  simp only [add_entity]
  rw [if_neg (fun hx => hx hlen)]
  simp only [h1]
  have h2 : entityInsert (addedState (comps.zip cUids) eUid).entTable eUid
      (comps.map (fun c => c.ctype.name) ++ []) cUids
      = Except.ok
          { compCols := (comps.zip cUids).map (fun p => p.1.ctype.name),
            rows := [addedEntityRow (comps.zip cUids) eUid] } := by
    rw [List.append_nil]
    simp only [entityInsert, addedState]
    rw [if_neg (fun hx => hx (by simp [hlen]))]
    rw [dif_pos (fun x hx => by rw [hpm]; exact hx)]
    simp only [List.any_nil, Bool.false_eq_true, if_false, List.nil_append]
    rw [zip_names_refs comps cUids hlen]
    rfl
  simp only [h2]
  simp [addedStateFull, addedState]

theorem registerAll_noop (ts : List CompType) (st : DBState)
    (h : ∀ t ∈ ts, (alookup st.registry t.name).isSome) :
    registerAll ts st = st := by
  induction ts with
  | nil => rfl
  | cons t rest ih =>
    rw [registerAll_cons]
    have hr : register_component_type t st = (false, st) := by
      unfold register_component_type
      rw [if_pos (h t (List.mem_cons_self t rest))]
    rw [hr]
    exact ih (fun t' ht' => h t' (List.mem_cons_of_mem _ ht'))

theorem query_after_add (comps : List Component) (eUid : Nat) (cUids : List Nat)
    (hne : comps ≠ []) (hlen : cUids.length = comps.length)
    (hnames : (comps.map (fun c => c.ctype.name)).Nodup) :
    run_query_phase
        { include_components := comps.map (fun c => c.ctype),
          optional_components := [], exclude_components := [] }
        (addedStateFull (comps.zip cUids) eUid)
      = Except.ok ([addedEntityRow (comps.zip cUids) eUid],
                   addedStateFull (comps.zip cUids) eUid) := by
  have hpm := zip_map_names comps cUids hlen
  have hkeysR : (addedRegistry (comps.zip cUids)).map Prod.fst
      = (comps.zip cUids).map (fun p => p.1.ctype.name) := by
    simp [addedRegistry]
  have hreg : registerAll
      (get_components_from_signature
        { include_components := comps.map (fun c => c.ctype),
          optional_components := [], exclude_components := [] })
      (addedStateFull (comps.zip cUids) eUid)
      = addedStateFull (comps.zip cUids) eUid := by
    apply registerAll_noop
    intro t ht
    simp only [get_components_from_signature, List.append_nil, List.mem_map] at ht
    obtain ⟨c, hc, rfl⟩ := ht
    rw [alookup_isSome_iff]
    show c.ctype.name ∈ (addedRegistry (comps.zip cUids)).map Prod.fst
    rw [hkeysR, hpm]
    exact List.mem_map_of_mem _ hc
  have h0 : whereClauses
      { include_components := comps.map (fun c => c.ctype),
        optional_components := [], exclude_components := [] } ≠ [] := by
    simp only [whereClauses, List.map_map, List.map_nil, List.append_nil]
    intro h
    rw [List.map_eq_nil_iff] at h
    exact hne h
  have hcols : ∀ t ∈ (comps.map (fun c => c.ctype)) ++ ([] : List CompType),
      t.name ∈ (addedStateFull (comps.zip cUids) eUid).entTable.compCols := by
    intro t ht
    rw [List.append_nil, List.mem_map] at ht
    obtain ⟨c, hc, rfl⟩ := ht
    show c.ctype.name ∈ (comps.zip cUids).map (fun p => p.1.ctype.name)
    rw [hpm]
    exact List.mem_map_of_mem _ hc
  have hfilter : evalPred
      { include_components := comps.map (fun c => c.ctype),
        optional_components := [], exclude_components := [] }
      (addedEntityRow (comps.zip cUids) eUid) = true := by
    simp only [evalPred, List.all_nil, Bool.and_true, List.all_eq_true]
    intro t ht
    rw [List.mem_map] at ht
    obtain ⟨c, hc, rfl⟩ := ht
    simp only [rowHolds, addedEntityRow]
    rw [alookup_isSome_iff]
    have hm : ((comps.zip cUids).map (fun p => (p.1.ctype.name, p.2))).map Prod.fst
        = (comps.zip cUids).map (fun p => p.1.ctype.name) := by
      simp
    rw [hm, hpm]
    exact List.mem_map_of_mem _ hc
  simp only [run_query_phase]
  rw [hreg]
  simp only [execSelect]
  rw [if_neg h0, dif_pos hcols]
  have hrows : (addedStateFull (comps.zip cUids) eUid).entTable.rows
      = [addedEntityRow (comps.zip cUids) eUid] := rfl
  rw [hrows]
  simp [hfilter, Except.map]

theorem load_after_add (comps : List Component) (eUid : Nat) (cUids : List Nat)
    (hlen : cUids.length = comps.length)
    (hnames : (comps.map (fun c => c.ctype.name)).Nodup)
    (hwf : ∀ c ∈ comps,
      c.vars.map Prod.fst = c.ctype.schema ∧ c.ctype.schema.Nodup) :
    ∃ ent, load_entity_from_ids (addedEntityRow (comps.zip cUids) eUid)
        (addedStateFull (comps.zip cUids) eUid) = Except.ok ent ∧
      ∀ c ∈ comps, ∃ c' ∈ ent.comps, c'.ctype = c.ctype ∧
        ∀ f v, alookup c.vars f = some v → alookup c'.vars f = some v := by
  have hpm := zip_map_names comps cUids hlen
  have hndp : ((comps.zip cUids).map (fun q => q.1.ctype.name)).Nodup := by
    rw [hpm]
    exact hnames
  have hkeysT : (addedTables (comps.zip cUids) eUid).map Prod.fst
      = (comps.zip cUids).map (fun p => p.1.ctype.name) := by
    simp [addedTables]
  have hcompCols : (addedStateFull (comps.zip cUids) eUid).entTable.compCols
      = (comps.zip cUids).map (fun p => p.1.ctype.name) := rfl
  have hht : ∀ n ∈ (addedStateFull (comps.zip cUids) eUid).entTable.compCols,
      (alookup (addedStateFull (comps.zip cUids) eUid).registry n).isSome →
      (alookup (addedStateFull (comps.zip cUids) eUid).compTables n).isSome := by
    intro n hn _
    rw [alookup_isSome_iff]
    show n ∈ (addedTables (comps.zip cUids) eUid).map Prod.fst
    rw [hkeysT]
    exact hn
  obtain ⟨ent, hent⟩ := core_ok (addedStateFull (comps.zip cUids) eUid).entTable.compCols
    (addedEntityRow (comps.zip cUids) eUid) (addedStateFull (comps.zip cUids) eUid)
    { uid := none, comps := [], unloaded := [] } hht
  have hloadeq : load_entity_from_ids (addedEntityRow (comps.zip cUids) eUid)
      (addedStateFull (comps.zip cUids) eUid) = Except.ok ent := hent
  refine ⟨ent, hloadeq, ?_⟩
  have hwfreg : wfRegistry (addedStateFull (comps.zip cUids) eUid) := by
    intro q hq
    simp only [addedStateFull, addedRegistry, List.mem_map] at hq
    obtain ⟨a, _, rfl⟩ := hq
    rfl
  have hccnd : (addedStateFull (comps.zip cUids) eUid).entTable.compCols.Nodup := by
    rw [hcompCols]
    exact hndp
  have hloads := core_loads (addedStateFull (comps.zip cUids) eUid).entTable.compCols
    (addedEntityRow (comps.zip cUids) eUid) (addedStateFull (comps.zip cUids) eUid)
    { uid := none, comps := [], unloaded := [] } ent hwfreg hccnd hent
  intro c hc
  have hcm : c ∈ (comps.zip cUids).map Prod.fst := by
    rw [List.map_fst_zip comps cUids (le_of_eq hlen.symm)]
    exact hc
  rw [List.mem_map] at hcm
  obtain ⟨p, hpmem, hpc⟩ := hcm
  have hr : alookup (addedRegistry (comps.zip cUids)) c.ctype.name = some c.ctype := by
    have h := alookup_map_of_mem (comps.zip cUids) (fun q => q.1.ctype.name)
      (fun q => q.1.ctype) p hpmem hndp
    simpa [hpc, addedRegistry] using h
  have htab : alookup (addedTables (comps.zip cUids) eUid) c.ctype.name
      = some { cols := c.ctype.schema,
               rows := [{ uid := p.2, ent := some eUid, fields := c.vars }] } := by
    have h := alookup_map_of_mem (comps.zip cUids) (fun q => q.1.ctype.name)
      (fun q => ({ cols := q.1.ctype.schema,
                   rows := [{ uid := q.2, ent := some eUid, fields := q.1.vars }] }
                 : CompTable)) p hpmem hndp
    simpa [hpc, addedTables] using h
  have href : alookup (addedEntityRow (comps.zip cUids) eUid).refs c.ctype.name
      = some p.2 := by
    have h := alookup_map_of_mem (comps.zip cUids) (fun q => q.1.ctype.name)
      (fun q => q.2) p hpmem hndp
    simpa [hpc, addedEntityRow] using h
  have hfetch : fetchRowByUid
      { cols := c.ctype.schema,
        rows := [{ uid := p.2, ent := some eUid, fields := c.vars }] }
      (some p.2)
      = some { uid := p.2, ent := some eUid, fields := c.vars } := by
    simp [fetchRowByUid]
  have hnmem : c.ctype.name ∈ (addedStateFull (comps.zip cUids) eUid).entTable.compCols := by
    rw [hcompCols, hpm]
    exact List.mem_map_of_mem _ hc
  have hmem := hloads c.ctype.name hnmem c.ctype
    { cols := c.ctype.schema,
      rows := [{ uid := p.2, ent := some eUid, fields := c.vars }] }
    { uid := p.2, ent := some eUid, fields := c.vars }
    hr htab (by rw [href]; exact hfetch)
  refine ⟨_, hmem, rfl, ?_⟩
  intro f v hfv
  have hfs : f ∈ c.ctype.schema := by
    rw [← (hwf c hc).1]
    have hs : (alookup c.vars f).isSome := by rw [hfv]; rfl
    rw [alookup_isSome_iff] at hs
    exact hs
  show alookup (create_component_from_data c.ctype
      { cols := c.ctype.schema,
        rows := [{ uid := p.2, ent := some eUid, fields := c.vars }] }
      { uid := p.2, ent := some eUid, fields := c.vars }).vars f = some v
  have hlk : alookup (c.ctype.schema.map (fun col =>
      (col, readField { uid := p.2, ent := some eUid, fields := c.vars } col))) f
      = some (readField { uid := p.2, ent := some eUid, fields := c.vars } f) :=
    alookup_map_self c.ctype.schema _ f hfs
  rw [create_component_from_data]
  rw [hlk]
  simp [readField, hfv]

/-- C3: adding an entity holding components C1..Cn to a fresh store and then
running a query requiring exactly the types of C1..Cn yields that entity's
index row, whose materialization reconstructs, for every original component,
a loaded component of the same type whose field values equal the original
field values. -/
theorem C3_round_trip (comps : List Component) (eUid : Nat) (cUids : List Nat)
    (hne : comps ≠ [])
    (hlen : cUids.length = comps.length)
    (hnames : (comps.map (fun c => c.ctype.name)).Nodup)
    (hwf : ∀ c ∈ comps,
      c.vars.map Prod.fst = c.ctype.schema ∧ c.ctype.schema.Nodup) :
    ∃ e1 st1,
      add_entity eUid cUids { uid := none, comps := comps, unloaded := [] } empty_db
        = Except.ok (eUid, e1, st1) ∧
      ∃ row, run_query_phase
          { include_components := comps.map (fun c => c.ctype),
            optional_components := [], exclude_components := [] } st1
          = Except.ok ([row], st1) ∧
      ∃ ent, load_entity_from_ids row st1 = Except.ok ent ∧
        ∀ c ∈ comps, ∃ c' ∈ ent.comps, c'.ctype = c.ctype ∧
          ∀ f v, alookup c.vars f = some v → alookup c'.vars f = some v := by
  obtain ⟨ent, hload, hvals⟩ := load_after_add comps eUid cUids hlen hnames hwf
  exact ⟨_, _, add_entity_from_empty comps eUid cUids hlen hnames hwf,
    addedEntityRow (comps.zip cUids) eUid,
    query_after_add comps eUid cUids hne hlen hnames,
    ent, hload, hvals⟩

/-- Witness for C3 at two concrete components on the fresh store. -/
theorem C3_round_trip_witness :
    ∃ e1 st1,
      add_entity 1 [10, 20] { uid := none, comps := [cA, cB], unloaded := [] } empty_db
        = Except.ok (1, e1, st1) ∧
      ∃ row, run_query_phase
          { include_components := [cA, cB].map (fun c => c.ctype),
            optional_components := [], exclude_components := [] } st1
          = Except.ok ([row], st1) ∧
      ∃ ent, load_entity_from_ids row st1 = Except.ok ent ∧
        ∀ c ∈ [cA, cB], ∃ c' ∈ ent.comps, c'.ctype = c.ctype ∧
          ∀ f v, alookup c.vars f = some v → alookup c'.vars f = some v :=
  C3_round_trip [cA, cB] 1 [10, 20] (by decide) (by decide) (by decide) (by decide)
